import Mathlib

/-!
# Verification of the `ezslurm` job scheduler

Shallow embedding of `ezslurm/job.py`, `ezslurm/config.py` and the parts of
the Python standard library they rely on (string splitting/stripping, UTF-8
decoding of captured process bytes, `int()` parsing).  External processes are
modelled by environment records supplying what the process would have
produced (captured stdout/stderr bytes, poll results, the external
scheduler's queue listing); logging calls are side effects with no influence
on program state and are not modelled.  Exceptions are modelled with
`Except`, with the raising operation's error value carrying the object state
at the moment the exception propagates.
-/

namespace Ezslurm

/-- The `Status` enum of `job.py`: `INIT | RUNNING | DONE`. -/
inductive Status where
  | init
  | running
  | done
deriving DecidableEq, Repr

/-- Numeric rank of a status along the `Init → Running → Done` chain. -/
def Status.rank : Status → Nat
  | .init => 0
  | .running => 1
  | .done => 2

/-- Forward order on statuses: `a` precedes or equals `b` on the chain. -/
def Status.le (a b : Status) : Prop := a.rank ≤ b.rank

instance : DecidablePred fun p : Status × Status => Status.le p.1 p.2 :=
  fun p => inferInstanceAs (Decidable (p.1.rank ≤ p.2.rank))

instance (a b : Status) : Decidable (Status.le a b) :=
  inferInstanceAs (Decidable (a.rank ≤ b.rank))

theorem Status.le_refl (a : Status) : Status.le a a := Nat.le_refl _

theorem Status.le_done (a : Status) : Status.le a .done := by
  cases a <;> simp [Status.le, Status.rank]

/-- Python exception kinds raised by the embedded code. -/
inductive PyErr where
  | indexError
  | keyError
  | assertionError
  | valueError
  | stopIteration
  | attributeError
  | unicodeDecodeError
  | typeError
deriving DecidableEq, Repr

/-! ## Python string-library model (over `List Char` / `List Nat` bytes) -/

/-- Python whitespace as used by `str.strip()` / `int()` (ASCII subset). -/
def isPySpace (c : Char) : Bool :=
  c = ' ' || c = '\t' || c = '\n' || c = '\r' || c = '\x0b' || c = '\x0c'

/-- The `str.strip()`: drop leading and trailing whitespace. -/
def pyStrip (l : List Char) : List Char :=
  (((l.dropWhile isPySpace).reverse).dropWhile isPySpace).reverse

/-- The `str.split(sep)` for a single-character separator: splits at every
occurrence, keeping empty pieces (Python semantics for an explicit `sep`). -/
def pySplitChar (sep : Char) : List Char → List (List Char)
  | [] => [[]]
  | c :: rest =>
    if c = sep then
      [] :: pySplitChar sep rest
    else
      match pySplitChar sep rest with
      | [] => [[c]]
      | g :: gs => (c :: g) :: gs

/-- Does `hay` start with `needle`? (helper for substring membership). -/
def listStartsWith : List Char → List Char → Bool
  | [], _ => true
  | _ :: _, [] => false
  | n :: ns, h :: hs => n = h && listStartsWith ns hs

/-- Python `needle in hay` on strings: contiguous-substring membership. -/
def listContainsSub (needle : List Char) : List Char → Bool
  | [] => listStartsWith needle []
  | h :: hs => listStartsWith needle (h :: hs) || listContainsSub needle hs

/-- Digits-only run parse used by `pyInt`. -/
def digitsToNat : List Char → Option Nat
  | [] => none
  | l => l.foldl (fun acc c =>
      match acc with
      | none => none
      | some n => if c.isDigit then some (n * 10 + (c.toNat - '0'.toNat)) else none)
      (some 0)

/-- Python `int(s)`: strip whitespace, optional sign, then decimal digits;
anything else raises `ValueError` (modelled as `none`).  (Python also accepts
`_` digit separators; the inputs here never contain them.) -/
def pyInt (l : List Char) : Option Int :=
  match pyStrip l with
  | '-' :: rest => (digitsToNat rest).map (fun n => -(n : Int))
  | '+' :: rest => (digitsToNat rest).map (fun n => (n : Int))
  | rest => (digitsToNat rest).map (fun n => (n : Int))

/-- The `'; '.join(cmds)` style separator join. -/
def joinSep (sep : String) : List String → String
  | [] => ""
  | [s] => s
  | s :: rest => s ++ sep ++ joinSep sep rest

/-! ### UTF-8 decoding (`bytes.decode("utf-8")`)

Strict decoder: rejects truncated sequences, bad continuation bytes,
overlong encodings and surrogate code points, like CPython's strict mode.
Returns `none` on `UnicodeDecodeError`. -/

/-- Is `b` a UTF-8 continuation byte (`0x80–0xBF`)? -/
def isCont (b : Nat) : Bool := 0x80 ≤ b && b ≤ 0xBF

/-- Code-point payload of a continuation byte. -/
def contVal (b : Nat) : Nat := b - 0x80

/-- Decode a UTF-8 byte sequence into code points; `none` on any error. -/
def utf8Points : List Nat → Option (List Nat)
  | [] => some []
  | b :: rest =>
    if b < 0x80 then
      (utf8Points rest).map (b :: ·)
    else if 0xC2 ≤ b && b ≤ 0xDF then
      match rest with
      | c1 :: rest' =>
        if isCont c1 then
          (utf8Points rest').map (((b - 0xC0) * 0x40 + contVal c1) :: ·)
        else none
      | _ => none
    else if 0xE0 ≤ b && b ≤ 0xEF then
      match rest with
      | c1 :: c2 :: rest' =>
        let lo1 := if b = 0xE0 then 0xA0 else 0x80
        let hi1 := if b = 0xED then 0x9F else 0xBF
        if (lo1 ≤ c1 && c1 ≤ hi1) && isCont c2 then
          (utf8Points rest').map
            (((b - 0xE0) * 0x1000 + contVal c1 * 0x40 + contVal c2) :: ·)
        else none
      | _ => none
    else if 0xF0 ≤ b && b ≤ 0xF4 then
      match rest with
      | c1 :: c2 :: c3 :: rest' =>
        let lo1 := if b = 0xF0 then 0x90 else 0x80
        let hi1 := if b = 0xF4 then 0x8F else 0xBF
        if (lo1 ≤ c1 && c1 ≤ hi1) && (isCont c2 && isCont c3) then
          (utf8Points rest').map
            (((b - 0xF0) * 0x40000 + contVal c1 * 0x1000 +
              contVal c2 * 0x40 + contVal c3) :: ·)
        else none
      | _ => none
    else none

/-- The `bytes.decode("utf-8")`: `none` models `UnicodeDecodeError`. -/
def utf8Decode (bs : List Nat) : Option String :=
  (utf8Points bs).map (fun ps => ⟨ps.map Char.ofNat⟩)

/-- ASCII encoding of a string as bytes (for concrete process outputs). -/
def asciiBytes (s : String) : List Nat := s.data.map Char.toNat

/-! ## `config.py`: `format_key` and `SlurmConfig.command` -/

/-- A Python value appearing as a `SlurmConfig` option value; rendered by an
f-string as in the source (`None` renders as the literal text `None`). -/
inductive PyVal where
  | vint (n : Int)
  | vstr (s : String)
  | vnone
deriving DecidableEq, Repr

/-- f-string rendering `f"{v}"` of an option value. -/
def PyVal.render : PyVal → String
  | .vint n => toString n
  | .vstr s => s
  | .vnone => "None"

/-- The `format_key`: `k.strip().replace("_", "-")`. -/
def format_key (k : String) : String :=
  ⟨(pyStrip k.data).map (fun c => if c = '_' then '-' else c)⟩

/-- The `core_cmd` argument of `SlurmConfig.command`: either a single command
string or a Python list of command strings (the `isinstance(core_cmd, list)`
branch). -/
inductive CoreCmd where
  | str (s : String)
  | list (l : List String)
deriving DecidableEq, Repr

/-- The `SlurmConfig`: an insertion-ordered `kwargs` dict of slurm options. -/
structure SlurmConfig where
  kwargs : List (String × PyVal)
deriving DecidableEq, Repr

/-- Merge step of `SlurmConfig.command`: a list of commands is joined into
one `bash -c "..."` invocation, a plain string is used as is. -/
def mergeCore : CoreCmd → String
  | .str s => s
  | .list l => "bash -c \"" ++ joinSep "; " l ++ "\""

/-- The `SlurmConfig.command(core_cmd, sbatch, fpath=None)`.  The `fpath`
variant writes the script to a file (I/O) and is not modelled; `SlurmJob`
always calls the `fpath=None` here-document form. -/
def SlurmConfig.command (cfg : SlurmConfig) (core_cmd : CoreCmd)
    (sbatch : Bool) : String :=
  let core := mergeCore core_cmd
  if sbatch then
    let script :=
      cfg.kwargs.foldl
        (fun acc kv => acc ++ "\n#SBATCH --" ++ format_key kv.1 ++ "=" ++ kv.2.render)
        "#!/bin/bash"
      ++ "\n\n" ++ core
    "sbatch" ++ " << EOF\n" ++ script ++ "\nEOF"
  else
    cfg.kwargs.foldl
      (fun acc kv => acc ++ " --" ++ format_key kv.1 ++ "=" ++ kv.2.render)
      "srun"
    ++ " " ++ core

/-! ## `job.py`: Job variants

External process behaviour is supplied by environments: `SubmitEnv` gives the
captured output bytes of a synchronously run / spawned process, `UpdateEnv`
gives a poll result, the external scheduler's queue listing, and the spawn
environment for a `SequentialJob`'s chained submission. -/

/-- The `command` constructor argument of `Job.__init__`: a string, a Python
list of strings, or a generator of strings (sequential mode). -/
inductive JobCommand where
  | str (s : String)
  | list (l : List String)
  | gen (cmds : List String)
deriving DecidableEq, Repr

/-- A command as stored on the job after `Job.__init__`. -/
inductive StoredCmd where
  | str (s : String)
  | gen (cmds : List String)
deriving DecidableEq, Repr

/-- Command normalization in `Job.__init__`: a list of strings is joined into
one `bash -c "..."` command.  `command[0]` is evaluated before the
`isinstance` check on it, so the empty list raises `IndexError`; a
non-list (the generator) skips normalization entirely. -/
def normalizeCommand : JobCommand → Except PyErr StoredCmd
  | .str s => .ok (.str s)
  | .list [] => .error .indexError
  | .list (c :: cs) => .ok (.str ("bash -c \"" ++ joinSep "; " (c :: cs) ++ "\""))
  | .gen cmds => .ok (.gen cmds)

/-- View of a stored command as a `SlurmConfig.command` argument.  A stored
generator would be rendered by the f-string as its `repr`; that corner is
unreachable from any claim and abstracted as a fixed marker text. -/
def storedToCore : StoredCmd → CoreCmd
  | .str s => .str s
  | .gen _ => .str "<generator object>"

/-- A detached process handle: the bytes it will have produced on each
stream and the exit code once it has exited (`none` while running). -/
structure ProcHandle where
  outBytes : List Nat
  errBytes : List Nat
  exitCode : Option Int
deriving DecidableEq, Repr

/-- Environment of one submission: captured stdout/stderr bytes of the
process that `submit()` runs or spawns. -/
structure SubmitEnv where
  procOut : List Nat
  procErr : List Nat
deriving DecidableEq, Repr

/-- Environment of one `update_status()` call. -/
structure UpdateEnv where
  /-- What `poll()` newly reports for a still-running process. -/
  pollRes : Option Int
  /-- Captured stdout bytes of `squeue --me -o %i --noheader`. -/
  squeueOut : List Nat
  /-- Spawn environment for a `SequentialJob`'s chained next submission. -/
  nextSub : SubmitEnv
deriving DecidableEq, Repr

/-- The `ForegroundJob` state. -/
structure FgState where
  jid : Nat
  command : StoredCmd
  status : Status
  stdout : String
  stderr : String
deriving DecidableEq, Repr

/-- The `BackgroundJob` state. -/
structure BgState where
  jid : Nat
  command : StoredCmd
  status : Status
  stdout : String
  stderr : String
  proc : Option ProcHandle
deriving DecidableEq, Repr

/-- The `SlurmJob` state; `command` is already wrapped by
`slurm_config.command(..., sbatch=True)` at construction. -/
structure SlurmState where
  jid : Nat
  command : String
  status : Status
  stdout : String
  stderr : String
  cfg : SlurmConfig
  slurmJobId : Option Int
deriving DecidableEq, Repr

/-- The lazy single-pass command source of a `SequentialJob`: the remaining
items of the generator, or a plain string (on which `next()` raises
`TypeError`). -/
inductive SeqSource where
  | gen (cmds : List String)
  | str (s : String)
deriving DecidableEq, Repr

/-- A `SequentialJob` sub-job: `SlurmJob` if slurm configuration was
supplied, `BackgroundJob` otherwise. -/
inductive SubJob where
  | bg (b : BgState)
  | slurm (s : SlurmState)
deriving DecidableEq, Repr

/-- The `SequentialJob` state: `outAcc`/`errAcc` are the accumulated
`self.stdout`/`self.stderr` lists. -/
structure SeqState where
  jid : Nat
  source : SeqSource
  status : Status
  outAcc : List String
  errAcc : List String
  slurmCfg : Option SlurmConfig
  curr : Option SubJob
deriving DecidableEq, Repr

/-! ### Constructors -/

/-- The `ForegroundJob.__init__`. -/
def mkForeground (command : JobCommand) (jid : Nat) : Except PyErr FgState :=
  (normalizeCommand command).map fun c =>
    { jid := jid, command := c, status := .init, stdout := "", stderr := "" }

/-- The `BackgroundJob.__init__`. -/
def mkBackground (command : JobCommand) (jid : Nat) : Except PyErr BgState :=
  (normalizeCommand command).map fun c =>
    { jid := jid, command := c, status := .init, stdout := "", stderr := "",
      proc := none }

/-- The `SlurmJob.__init__`: normalization happens first in `Job.__init__`; a
missing `slurm_config` then raises `AttributeError` at
`self.slurm_config.command(...)`. -/
def mkSlurmJob (command : JobCommand) (jid : Nat) (cfg? : Option SlurmConfig) :
    Except PyErr SlurmState :=
  match normalizeCommand command with
  | .error er => .error er
  | .ok c =>
    match cfg? with
    | none => .error .attributeError
    | some cfg =>
      .ok { jid := jid, command := cfg.command (storedToCore c) true,
            status := .init, stdout := "", stderr := "", cfg := cfg,
            slurmJobId := none }

/-- The `SequentialJob.__init__`: base normalization first (so the empty list
still raises `IndexError`), then `stdout`/`stderr` are re-bound to lists. -/
def mkSequential (command : JobCommand) (jid : Nat)
    (cfg? : Option SlurmConfig) : Except PyErr SeqState :=
  (normalizeCommand command).map fun c =>
    { jid := jid,
      source := (match c with
                 | .str s => SeqSource.str s
                 | .gen cs => SeqSource.gen cs),
      status := .init, outAcc := [], errAcc := [], slurmCfg := cfg?,
      curr := none }

/-! ### Operations -/

/-- The `ForegroundJob.submit`: set RUNNING, run the command synchronously,
decode stdout then stderr in two separate assignments (a failing decode
raises `UnicodeDecodeError`, uncaught, leaving status at RUNNING and any
earlier assignment in place), then set DONE. -/
def fgSubmit (e : SubmitEnv) (s : FgState) : Except (PyErr × FgState) FgState :=
  let s1 := { s with status := .running }
  match utf8Decode e.procOut with
  | none => .error (.unicodeDecodeError, s1)
  | some out =>
    let s2 := { s1 with stdout := out }
    match utf8Decode e.procErr with
    | none => .error (.unicodeDecodeError, s2)
    | some err => .ok { s2 with stderr := err, status := .done }

/-- The `ForegroundJob.update_status`: `pass`. -/
def fgUpdate (s : FgState) : FgState := s

/-- The `BackgroundJob.submit`: spawn the process and set RUNNING. -/
def bgSubmit (e : SubmitEnv) (s : BgState) : BgState :=
  { s with proc := some { outBytes := e.procOut, errBytes := e.procErr,
                          exitCode := none },
           status := .running }

/-- The `BackgroundJob.update_status`: if a process exists and `poll()` is not
`None`, set DONE and decode the buffered output; the tuple assignment
decodes both streams before assigning either, so a failing decode leaves
both text fields unchanged (a warning is logged).  Once exited, later polls
keep reporting the recorded exit code (CPython retains the communicated
buffers, so a repeat call re-decodes the same bytes). -/
def bgUpdate (e : UpdateEnv) (s : BgState) : BgState :=
  match s.proc with
  | none => s
  | some h =>
    match h.exitCode.orElse (fun _ => e.pollRes) with
    | none => s
    | some c =>
      let s1 := { s with proc := some { h with exitCode := some c },
                         status := .done }
      match utf8Decode h.outBytes, utf8Decode h.errBytes with
      | some o, some er => { s1 with stdout := o, stderr := er }
      | _, _ => s1

/-- The literal submission marker asserted by `SlurmJob.submit`. -/
def submittedMarker : String := "Submitted batch job"

/-- The `SlurmJob.submit`: run `super().submit()` (the `ForegroundJob` body,
which ends by setting DONE), then set RUNNING again, assert the marker is in
the captured stdout (`AssertionError` otherwise), and parse the fourth
space-separated token with `int()` as the slurm job id. -/
def slurmSubmit (e : SubmitEnv) (s : SlurmState) :
    Except (PyErr × SlurmState) SlurmState :=
  let s1 := { s with status := .running }
  match utf8Decode e.procOut with
  | none => .error (.unicodeDecodeError, s1)
  | some out =>
    let s2 := { s1 with stdout := out }
    match utf8Decode e.procErr with
    | none => .error (.unicodeDecodeError, s2)
    | some err =>
      let s3 := { s2 with stderr := err, status := .done }
      let s4 := { s3 with status := .running }
      if listContainsSub submittedMarker.data s4.stdout.data then
        match (pySplitChar ' ' s4.stdout.data).get? 3 with
        | none => .error (.indexError, s4)
        | some tok =>
          match pyInt tok with
          | none => .error (.valueError, s4)
          | some n => .ok { s4 with slurmJobId := some n }
      else .error (.assertionError, s4)

/-- The `SlurmJob.update_status`: if a slurm id is recorded, run `squeue`,
decode its output (an undecodable output raises, uncaught), parse one id per
non-empty line (`ValueError` on a non-numeric line), and set DONE exactly
when the recorded id is absent. -/
def slurmUpdate (e : UpdateEnv) (s : SlurmState) :
    Except (PyErr × SlurmState) SlurmState :=
  match s.slurmJobId with
  | none => .ok s
  | some sjid =>
    match utf8Decode e.squeueOut with
    | none => .error (.unicodeDecodeError, s)
    | some qout =>
      let lines := (pySplitChar '\n' qout.data).filter (fun l => !l.isEmpty)
      match lines.mapM (fun l => pyInt (pyStrip l)) with
      | none => .error (.valueError, s)
      | some activeIds =>
        if sjid ∈ activeIds then .ok s
        else .ok { s with status := .done }

/-- Status of a sub-job. -/
def SubJob.status : SubJob → Status
  | .bg b => b.status
  | .slurm s => s.status

/-- Captured stdout of a sub-job. -/
def SubJob.stdout : SubJob → String
  | .bg b => b.stdout
  | .slurm s => s.stdout

/-- Captured stderr of a sub-job. -/
def SubJob.stderr : SubJob → String
  | .bg b => b.stderr
  | .slurm s => s.stderr

/-- The `SequentialJob.get_next_job`'s construction step: `SlurmJob` when slurm
configuration is present, `BackgroundJob` otherwise (a sub-command is a
single string, so base normalization stores it unchanged). -/
def mkSubJob (c : String) (jid : Nat) : Option SlurmConfig → SubJob
  | none =>
    .bg { jid := jid, command := .str c, status := .init, stdout := "",
          stderr := "", proc := none }
  | some cfg =>
    .slurm { jid := jid, command := cfg.command (.str c) true,
             status := .init, stdout := "", stderr := "", cfg := cfg,
             slurmJobId := none }

/-- The `submit()` dispatched on a sub-job. -/
def subSubmit (e : SubmitEnv) : SubJob → Except (PyErr × SubJob) SubJob
  | .bg b => .ok (.bg (bgSubmit e b))
  | .slurm s =>
    match slurmSubmit e s with
    | .ok s' => .ok (.slurm s')
    | .error (er, s') => .error (er, .slurm s')

/-- The `update_status()` dispatched on a sub-job. -/
def subUpdate (e : UpdateEnv) : SubJob → Except (PyErr × SubJob) SubJob
  | .bg b => .ok (.bg (bgUpdate e b))
  | .slurm s =>
    match slurmUpdate e s with
    | .ok s' => .ok (.slurm s')
    | .error (er, s') => .error (er, .slurm s')

/-- The `next(self.command)` on the stored single-pass source. -/
def SeqSource.nextCmd : SeqSource → Except PyErr (String × SeqSource)
  | .gen [] => .error .stopIteration
  | .gen (c :: cs) => .ok (c, .gen cs)
  | .str _ => .error .typeError

/-- The `SequentialJob.submit`: pull the first sub-command (a raising `next()`
propagates), construct and submit the sub-job, then set RUNNING. -/
def seqSubmit (e : SubmitEnv) (s : SeqState) :
    Except (PyErr × SeqState) SeqState :=
  match s.source.nextCmd with
  | .error er => .error (er, s)
  | .ok (c, src') =>
    let sub := mkSubJob c s.jid s.slurmCfg
    let s1 := { s with curr := some sub, source := src' }
    match subSubmit e sub with
    | .error (er, sub') => .error (er, { s1 with curr := some sub' })
    | .ok sub' => .ok { s1 with curr := some sub', status := .running }

/-- The `SequentialJob.update_status`: poll the current sub-job (`curr_job` is
`None` before `submit`, so the attribute access raises); if it is DONE,
append its output to the accumulators, then try to pull and submit the next
sub-command — only `StopIteration` is caught (setting DONE); any other
exception from the chained submission propagates. -/
def seqUpdate (e : UpdateEnv) (s : SeqState) :
    Except (PyErr × SeqState) SeqState :=
  match s.curr with
  | none => .error (.attributeError, s)
  | some sub =>
    match subUpdate e sub with
    | .error (er, sub') => .error (er, { s with curr := some sub' })
    | .ok sub' =>
      if sub'.status = .done then
        let s1 := { s with curr := some sub',
                           outAcc := s.outAcc ++ [sub'.stdout],
                           errAcc := s.errAcc ++ [sub'.stderr] }
        match s1.source.nextCmd with
        | .error .stopIteration => .ok { s1 with status := .done }
        | .error er => .error (er, s1)
        | .ok (c, src') =>
          let newSub := mkSubJob c s.jid s1.slurmCfg
          let s2 := { s1 with curr := some newSub, source := src' }
          match subSubmit e.nextSub newSub with
          | .ok ns => .ok { s2 with curr := some ns }
          | .error (er, ns) => .error (er, { s2 with curr := some ns })
      else .ok { s with curr := some sub' }

/-! ### Unified job view and `JobManager` -/

/-- A `Job` of any variant. -/
inductive JobV where
  | fg (s : FgState)
  | bg (s : BgState)
  | slurm (s : SlurmState)
  | seq (s : SeqState)
deriving DecidableEq, Repr

/-- The `status` field of a job. -/
def JobV.status : JobV → Status
  | .fg s => s.status
  | .bg s => s.status
  | .slurm s => s.status
  | .seq s => s.status

/-- The `job_id` field of a job. -/
def JobV.jid : JobV → Nat
  | .fg s => s.jid
  | .bg s => s.jid
  | .slurm s => s.jid
  | .seq s => s.jid

/-- The `submit()` dispatched on the variant. -/
def submitJ (e : SubmitEnv) : JobV → Except (PyErr × JobV) JobV
  | .fg s =>
    match fgSubmit e s with
    | .ok s' => .ok (.fg s')
    | .error (er, s') => .error (er, .fg s')
  | .bg s => .ok (.bg (bgSubmit e s))
  | .slurm s =>
    match slurmSubmit e s with
    | .ok s' => .ok (.slurm s')
    | .error (er, s') => .error (er, .slurm s')
  | .seq s =>
    match seqSubmit e s with
    | .ok s' => .ok (.seq s')
    | .error (er, s') => .error (er, .seq s')

/-- The `update_status()` dispatched on the variant. -/
def updateJ (e : UpdateEnv) : JobV → Except (PyErr × JobV) JobV
  | .fg s => .ok (.fg (fgUpdate s))
  | .bg s => .ok (.bg (bgUpdate e s))
  | .slurm s =>
    match slurmUpdate e s with
    | .ok s' => .ok (.slurm s')
    | .error (er, s') => .error (er, .slurm s')
  | .seq s =>
    match seqUpdate e s with
    | .ok s' => .ok (.seq s')
    | .error (er, s') => .error (er, .seq s')

/-- The job state after an operation, whether it returned or raised (the
error value carries the object state at the moment the exception
propagates). -/
def resJob : Except (PyErr × JobV) JobV → JobV
  | .ok j => j
  | .error (_, j) => j

/-- The `JobManager` state: the three ordered collections and the cap. -/
structure MState where
  maxConcurrentJobs : Nat
  todo : List JobV
  active : List JobV
  doneL : List JobV
deriving DecidableEq, Repr

/-- The `JobManager.__init__`. -/
def managerInit (maxC : Nat) : MState :=
  { maxConcurrentJobs := maxC, todo := [], active := [], doneL := [] }

/-- The `JOB_CLASSES` mode table: `"bash" → BackgroundJob`,
`"slurm" → SlurmJob`, `"sequential" → SequentialJob`. -/
inductive JobKind where
  | bash
  | slurm
  | sequential
deriving DecidableEq, Repr

/-- Dict lookup in `JOB_CLASSES`; `none` models the `KeyError`. -/
def JOB_CLASSES (mode : String) : Option JobKind :=
  if mode = "bash" then some .bash
  else if mode = "slurm" then some .slurm
  else if mode = "sequential" then some .sequential
  else none

/-- The `JobManager.add_job(command, mode, slurm_config)`: the id handed to the
new job is the current length of `todo_list`; an unknown mode raises
`KeyError` at the dict lookup, before any construction. -/
def addJob (command : JobCommand) (mode : String) (cfg? : Option SlurmConfig)
    (s : MState) : Except PyErr MState :=
  match JOB_CLASSES mode with
  | none => .error .keyError
  | some k =>
    let jid := s.todo.length
    let j? : Except PyErr JobV :=
      match k with
      | .bash => (mkBackground command jid).map JobV.bg
      | .slurm => (mkSlurmJob command jid cfg?).map JobV.slurm
      | .sequential => (mkSequential command jid cfg?).map JobV.seq
    match j? with
    | .error er => .error er
    | .ok j => .ok { s with todo := s.todo ++ [j] }

/-- The `while` loop of `assign_jobs`: while the todo list is non-empty and
the active list is below the cap, pop the head, submit it, and append it to
the active list.  `ef n` supplies the environment of the `n`-th submission
of this call; an exception from `submit()` propagates out of the call. -/
def assignAux (ef : Nat → SubmitEnv) (maxC : Nat) :
    List JobV → Nat → List JobV → Except PyErr (List JobV × List JobV)
  | [], _, active => .ok ([], active)
  | j :: rest, n, active =>
    if active.length < maxC then
      match submitJ (ef n) j with
      | .error (er, _) => .error er
      | .ok j' => assignAux ef maxC rest (n + 1) (active ++ [j'])
    else .ok (j :: rest, active)

/-- The `JobManager.assign_jobs`. -/
def assignJobs (ef : Nat → SubmitEnv) (s : MState) : Except PyErr MState :=
  match assignAux ef s.maxConcurrentJobs s.todo 0 s.active with
  | .error er => .error er
  | .ok (todo', active') => .ok { s with todo := todo', active := active' }

/-- First loop of `update_jobs`: update every active job in order (`ef n`
is the environment of the `n`-th poll of this call). -/
def updateAll (ef : Nat → UpdateEnv) :
    List JobV → Nat → Except PyErr (List JobV)
  | [], _ => .ok []
  | j :: rest, n =>
    match updateJ (ef n) j with
    | .error (er, _) => .error er
    | .ok j' => (updateAll ef rest (n + 1)).map (j' :: ·)

/-- The `JobManager.update_jobs`: update all active jobs, then move every job
now DONE out of `active_list` (object-identity `list.remove`, rendered as a
filter since each job object occurs exactly once) into `done_list`,
preserving the order in which they were found. -/
def updateJobs (ef : Nat → UpdateEnv) (s : MState) : Except PyErr MState :=
  match updateAll ef s.active 0 with
  | .error er => .error er
  | .ok active' =>
    let doneNew := active'.filter (fun j => j.status == Status.done)
    let remaining := active'.filter (fun j => !(j.status == Status.done))
    .ok { s with active := remaining, doneL := s.doneL ++ doneNew }

/-! ### Derived definitions used by the verification -/

/-- Is the job a `SequentialJob`? -/
def JobV.isSeq : JobV → Bool
  | .seq _ => true
  | _ => false

/-- Coherence of a DONE `BackgroundJob`: its process handle exists, has
exited, and the text fields already hold the decoded output (the state any
`BackgroundJob` is in right after its DONE transition); trivial for other
variants. -/
def doneInv : JobV → Bool
  | .bg s =>
    match s.proc with
    | some h =>
      h.exitCode.isSome &&
      (match utf8Decode h.outBytes, utf8Decode h.errBytes with
       | some o, some er => s.stdout == o && s.stderr == er
       | _, _ => true)
    | none => false
  | _ => true

/-- The object state after an operation on a single variant, whether it
returned or raised. -/
def resOf {α : Type} : Except (PyErr × α) α → α
  | .ok a => a
  | .error (_, a) => a

/-- Manager states reachable by completed (non-raising) interface calls. -/
inductive Reachable : MState → Prop where
  | init : ∀ maxC, Reachable (managerInit maxC)
  | add : ∀ s s' cmd mode cfg?, Reachable s →
      addJob cmd mode cfg? s = .ok s' → Reachable s'
  | assign : ∀ s s' ef, Reachable s →
      assignJobs ef s = .ok s' → Reachable s'
  | update : ∀ s s' ef, Reachable s →
      updateJobs ef s = .ok s' → Reachable s'

/-- Repeated `update_status()` calls on a `SequentialJob`, one environment
per call, stopping at a propagating exception. -/
def runSeqUpdates : List UpdateEnv → SeqState → Except (PyErr × SeqState) SeqState
  | [], s => .ok s
  | e :: rest, s =>
    match seqUpdate e s with
    | .ok s' => runSeqUpdates rest s'
    | .error x => .error x

/-- How many polls of the schedule observe the current process exited. -/
def pollCount (envs : List UpdateEnv) : Nat :=
  (envs.filter (fun e => e.pollRes.isSome)).length

/-- Does the poll schedule end on an observed exit (i.e. the run is driven
exactly to completion and then stops)? -/
def endsWithPoll : List UpdateEnv → Bool
  | [] => false
  | [e] => e.pollRes.isSome
  | _ :: rest => endsWithPoll rest

/-- The options text accumulated by the rendering fold of
`SlurmConfig.command`, one `seg ++ key ++ "=" ++ value` piece per option. -/
def optsWith (seg : String) : List (String × PyVal) → String
  | [] => ""
  | kv :: rest => seg ++ format_key kv.1 ++ "=" ++ kv.2.render ++ optsWith seg rest

/-! ## Helper lemmas -/

theorem bgUpdate_status_le (e : UpdateEnv) (s : BgState) :
    Status.le s.status (bgUpdate e s).status := by
  unfold bgUpdate
  split
  · exact Status.le_refl _
  · split
    · exact Status.le_refl _
    · split <;> exact Status.le_done _

theorem slurmUpdate_status_le (e : UpdateEnv) (s : SlurmState) :
    Status.le s.status (resOf (slurmUpdate e s)).status := by
  unfold slurmUpdate
  split
  · exact Status.le_refl _
  · split
    · exact Status.le_refl _
    · dsimp only
      split
      · exact Status.le_refl _
      · split
        · exact Status.le_refl _
        · exact Status.le_done _

theorem seqUpdate_status_le (e : UpdateEnv) (s : SeqState) :
    Status.le s.status (resOf (seqUpdate e s)).status := by
  unfold seqUpdate
  split
  · exact Status.le_refl _
  · split
    · exact Status.le_refl _
    · split
      · dsimp only
        split
        · exact Status.le_done _
        · exact Status.le_refl _
        · split <;> exact Status.le_refl _
      · exact Status.le_refl _

theorem updateJ_status_le (e : UpdateEnv) (j : JobV) :
    Status.le j.status (resJob (updateJ e j)).status := by
  cases j with
  | fg s => exact Status.le_refl _
  | bg s =>
    simpa [updateJ, resJob, JobV.status] using bgUpdate_status_le e s
  | slurm s =>
    have h := slurmUpdate_status_le e s
    cases hr : slurmUpdate e s with
    | ok s' => rw [hr] at h; simpa [updateJ, hr, resJob, JobV.status] using h
    | error p =>
      obtain ⟨er, s'⟩ := p
      rw [hr] at h; simpa [updateJ, hr, resJob, JobV.status] using h
  | seq s =>
    have h := seqUpdate_status_le e s
    cases hr : seqUpdate e s with
    | ok s' => rw [hr] at h; simpa [updateJ, hr, resJob, JobV.status] using h
    | error p =>
      obtain ⟨er, s'⟩ := p
      rw [hr] at h; simpa [updateJ, hr, resJob, JobV.status] using h

theorem Status.eq_done_of_done_le (a : Status) (h : Status.le .done a) :
    a = .done := by
  cases a
  · exact absurd h (by decide)
  · exact absurd h (by decide)
  · rfl

theorem bgUpdate_done_fixed (e : UpdateEnv) (s : BgState)
    (hdone : s.status = .done) (hinv : doneInv (.bg s) = true) :
    bgUpdate e s = s := by
  obtain ⟨jid, cmd, st, so, se, pr⟩ := s
  cases pr with
  | none => simp [doneInv] at hinv
  | some h =>
    obtain ⟨ob, eb, ec⟩ := h
    cases ec with
    | none => simp [doneInv] at hinv
    | some c =>
      simp only [JobV.status] at hdone
      subst hdone
      simp only [doneInv, Option.isSome_some, Bool.true_and] at hinv
      unfold bgUpdate
      simp only [Option.some_orElse]
      revert hinv
      cases hdo : utf8Decode ob <;> cases hde : utf8Decode eb <;>
        intro hinv <;> simp_all [beq_iff_eq]

theorem slurmUpdate_done_fixed (e : UpdateEnv) (s : SlurmState)
    (hdone : s.status = .done) : resOf (slurmUpdate e s) = s := by
  obtain ⟨jid, cmd, st, so, se, cfg, sjid⟩ := s
  simp only at hdone
  subst hdone
  unfold slurmUpdate
  cases sjid with
  | none => rfl
  | some n =>
    simp only
    cases hq : utf8Decode e.squeueOut with
    | none => rfl
    | some qout =>
      simp only
      cases hm : (List.filter (fun l => !l.isEmpty)
          (pySplitChar '\n' qout.data)).mapM (fun l => pyInt (pyStrip l)) with
      | none => rfl
      | some ids => by_cases hmem : n ∈ ids <;> simp [hmem, resOf]

/-! ## Claim theorems -/

/-- C1: for every Job of every variant, under the call orders permitted by
the interface (`submit()` only from `Init`, `update_status()` at any time),
the status only ever moves forward along `Init → Running → Done`: every
`update_status` call leaves the status at or beyond the pre-call status
(whether the call returns or raises), and a `submit` from `Init` cannot move
the status backwards.  In particular `SlurmJob.submit`, observed at the call
boundary, records the Running state after running the submission command. -/
theorem status_monotonic (j : JobV) :
    (∀ e, Status.le j.status (resJob (updateJ e j)).status) ∧
    (∀ e, j.status = .init → Status.le j.status (resJob (submitJ e j)).status) := by
  refine ⟨fun e => updateJ_status_le e j, fun e h => ?_⟩
  rw [h]
  exact Nat.zero_le _

/-- Witness for C1: the hypotheses discharged on a concrete fresh
`BackgroundJob`. -/
theorem status_monotonic_witness :
    Status.le
      (JobV.bg { jid := 0, command := .str "a", status := .init,
                 stdout := "", stderr := "", proc := none }).status
      (resJob (submitJ ⟨[], []⟩
        (JobV.bg { jid := 0, command := .str "a", status := .init,
                   stdout := "", stderr := "", proc := none }))).status :=
  (status_monotonic _).2 ⟨[], []⟩ rfl

/-- C2 counterexample: a `SequentialJob` already in `Done` (source `["a"]`
driven to completion) is changed by a further `update_status()` call — the
accumulated stdout sequence receives a duplicate entry (`["o1"]` becomes
`["o1", "o1"]`), so the claimed no-op fails for `SequentialJob`. -/
theorem seq_update_after_done_appends :
    ((mkSequential (.gen ["a"]) 0 none).bind (fun s0 =>
      ((seqSubmit ⟨asciiBytes "o1", asciiBytes "e1"⟩ s0).mapError Prod.fst).bind (fun s1 =>
      ((seqUpdate ⟨some 0, [], ⟨[], []⟩⟩ s1).mapError Prod.fst).bind (fun s2 =>
      ((seqUpdate ⟨some 0, [], ⟨[], []⟩⟩ s2).mapError Prod.fst).map (fun s3 =>
        (s2.status, s2.outAcc, s3.status, s3.outAcc))))))
    = .ok (Status.done, ["o1"], Status.done, ["o1", "o1"]) := rfl

/-- C4: `add_job` assigns `job_id = len(todo_list)`, so after `assign_jobs`
drains the pending list the ids restart: enqueue `a`, `b`, assign both, then
enqueue `c` — the active jobs carry ids `[0, 1]` and the newly enqueued job
carries id `0` again, reusing the first job's id. -/
theorem job_id_reused_after_assign :
    ((((addJob (.str "a") "bash" none (managerInit 2)).bind
        (addJob (.str "b") "bash" none)).bind
        (assignJobs (fun _ => ⟨[], []⟩))).bind
        (addJob (.str "c") "bash" none)).map
      (fun m => (m.active.map JobV.jid, m.todo.map JobV.jid))
    = .ok ([0, 1], [0]) := rfl

/-- C5 counterexample: when the submission output lacks the marker, the
`AssertionError` is raised with the job's status already set to `Running`
(it was even set to `Done` and back inside `super().submit()`), refuting
"the Job has never reached the Running state at the moment of failure". -/
theorem slurm_missing_marker_status_running :
    slurmSubmit ⟨asciiBytes "no marker here\n", []⟩
      { jid := 0, command := "sbatch << EOF\n#!/bin/bash\n\necho hi\nEOF",
        status := .init, stdout := "", stderr := "", cfg := ⟨[]⟩,
        slurmJobId := none }
    = .error (.assertionError,
        { jid := 0, command := "sbatch << EOF\n#!/bin/bash\n\necho hi\nEOF",
          status := .running, stdout := "no marker here\n", stderr := "",
          cfg := ⟨[]⟩, slurmJobId := none }) := rfl

/-- C6 counterexample: the claimed enqueue modes `"background"` and
`"foreground"` are rejected with `KeyError`, and `"bash"` constructs a
`BackgroundJob`, not a synchronous foreground job. -/
theorem modes_background_foreground_rejected :
    addJob (.str "x") "background" none (managerInit 1) = .error .keyError ∧
    addJob (.str "x") "foreground" none (managerInit 1) = .error .keyError ∧
    addJob (.str "x") "bash" none (managerInit 1) =
      .ok { maxConcurrentJobs := 1,
            todo := [.bg { jid := 0, command := .str "x", status := .init,
                           stdout := "", stderr := "", proc := none }],
            active := [], doneL := [] } :=
  ⟨rfl, rfl, rfl⟩

/-- C7 counterexample: a `ForegroundJob` whose captured stdout is the
invalid UTF-8 byte `0xFF` does not recover — `submit()` raises
`UnicodeDecodeError` and the job is left at `Running`, never reaching
`Done`. -/
theorem fg_decode_error_not_recovered :
    fgSubmit ⟨[0xFF], []⟩
      { jid := 0, command := .str "a", status := .init, stdout := "", stderr := "" }
    = .error (.unicodeDecodeError,
        { jid := 0, command := .str "a", status := .running, stdout := "",
          stderr := "" }) := rfl

/-- C9 counterexample: an option with value `None` is not omitted — it is
rendered as the literal flag `--foo=None`. -/
theorem none_option_rendered_literally :
    SlurmConfig.command ⟨[("foo", .vnone)]⟩ (.str "echo hi") false
      = "srun --foo=None echo hi" ∧
    listContainsSub "--foo=None".data
      (SlurmConfig.command ⟨[("foo", .vnone)]⟩ (.str "echo hi") false).data
      = true :=
  ⟨rfl, rfl⟩

/-- C10: constructing any Job variant with the empty list as the command
raises `IndexError` in `Job.__init__`'s normalization (`command[0]` is
evaluated on the empty list), for every job id and configuration. -/
theorem empty_command_list_rejected (jid : Nat) (cfg? : Option SlurmConfig) :
    mkForeground (.list []) jid = .error .indexError ∧
    mkBackground (.list []) jid = .error .indexError ∧
    mkSlurmJob (.list []) jid cfg? = .error .indexError ∧
    mkSequential (.list []) jid cfg? = .error .indexError :=
  ⟨rfl, rfl, rfl, rfl⟩

/-- C2 (amended): for every Foreground, Background and Slurm job already in
`Done` (the Background job in the coherent post-transition state `doneInv`),
any further `update_status()` leaves the whole job state — status and
stdout/stderr — unchanged; a `SequentialJob`'s status also stays `Done`, but
its accumulated output sequences gain a duplicate entry per extra call
(see the counterexample), so the claimed no-op holds for every variant
except `SequentialJob`. -/
theorem update_on_done_noop_except_sequential :
    (∀ e j, j.status = .done → JobV.isSeq j = false → doneInv j = true →
       resJob (updateJ e j) = j) ∧
    (∀ e (s : SeqState), s.status = .done →
       (resOf (seqUpdate e s)).status = .done) := by
  constructor
  · intro e j hdone hseq hinv
    cases j with
    | fg s => rfl
    | bg s =>
      simp only [updateJ, resJob]
      rw [bgUpdate_done_fixed e s hdone hinv]
    | slurm s =>
      have h := slurmUpdate_done_fixed e s hdone
      cases hr : slurmUpdate e s with
      | ok s' =>
        rw [hr] at h; simp only [resOf] at h
        simp [updateJ, hr, resJob, h]
      | error p =>
        obtain ⟨er, s'⟩ := p
        rw [hr] at h; simp only [resOf] at h
        simp [updateJ, hr, resJob, h]
    | seq s => simp [JobV.isSeq] at hseq
  · intro e s hdone
    exact Status.eq_done_of_done_le _ (hdone ▸ seqUpdate_status_le e s)

/-- Witness for C2 (amended): a Background job that has reached `Done` with
output `"o"`/`"e"` is left exactly unchanged by another poll, and a
`SequentialJob` in `Done` keeps status `Done`. -/
theorem update_on_done_noop_witness :
    resJob (updateJ ⟨none, [], ⟨[], []⟩⟩
      (JobV.bg { jid := 0, command := .str "a", status := .done, stdout := "o",
                 stderr := "e",
                 proc := some { outBytes := asciiBytes "o",
                                errBytes := asciiBytes "e",
                                exitCode := some 0 } }))
    = JobV.bg { jid := 0, command := .str "a", status := .done, stdout := "o",
                stderr := "e",
                proc := some { outBytes := asciiBytes "o",
                               errBytes := asciiBytes "e",
                               exitCode := some 0 } } :=
  update_on_done_noop_except_sequential.1 _ _ rfl rfl (by decide)

/-- C5 (amended): when the submission command's captured stdout lacks the
literal marker `"Submitted batch job"`, `submit()` raises `AssertionError`
(a fatal submission error) — but the job's status at the moment of failure
is `Running`, set just before the marker check (it even passed through
`Done` inside `super().submit()`), not `Init`; when the marker is present as
in stdout `"Submitted batch job 6449881\n"`, the fourth whitespace-separated
token `6449881` is stored as the slurm job id. -/
theorem slurm_submit_marker_rules :
    (∀ (s : SlurmState) (e : SubmitEnv) (out err : String),
       utf8Decode e.procOut = some out → utf8Decode e.procErr = some err →
       listContainsSub submittedMarker.data out.data = false →
       slurmSubmit e s = .error (.assertionError,
         { s with status := .running, stdout := out, stderr := err })) ∧
    slurmSubmit ⟨asciiBytes "Submitted batch job 6449881\n", []⟩
      { jid := 0, command := "c", status := .init, stdout := "", stderr := "",
        cfg := ⟨[]⟩, slurmJobId := none }
      = .ok { jid := 0, command := "c", status := .running,
              stdout := "Submitted batch job 6449881\n", stderr := "",
              cfg := ⟨[]⟩, slurmJobId := some 6449881 } := by
  constructor
  · intro s e out err h1 h2 h3
    simp [slurmSubmit, h1, h2, h3]
  · rfl

/-- Witness for C5 (amended): hypotheses discharged at stdout
`"no such marker\n"`. -/
theorem slurm_submit_marker_rules_witness :
    slurmSubmit ⟨asciiBytes "no such marker\n", []⟩
      { jid := 1, command := "c", status := .init, stdout := "", stderr := "",
        cfg := ⟨[]⟩, slurmJobId := none }
    = .error (.assertionError,
        { jid := 1, command := "c", status := .running,
          stdout := "no such marker\n", stderr := "", cfg := ⟨[]⟩,
          slurmJobId := none }) :=
  slurm_submit_marker_rules.1 _ _ "no such marker\n" "" rfl rfl rfl

/-- C6 (amended): the enqueue surface accepts exactly the modes `"bash"`,
`"slurm"` and `"sequential"`; `"bash"` constructs a `BackgroundJob` (a
detached background job, not a synchronous foreground one), and every other
mode — including `"foreground"` and `"background"` — fails immediately at
enqueue time with a `KeyError`, never deferring to scheduling time. -/
theorem enqueue_mode_table :
    (∀ mode cmd cfg? s, mode ≠ "bash" → mode ≠ "slurm" → mode ≠ "sequential" →
       addJob cmd mode cfg? s = .error .keyError) ∧
    (∀ cmd s c, normalizeCommand cmd = .ok c →
       addJob cmd "bash" none s = .ok { s with todo := s.todo ++
         [.bg { jid := s.todo.length, command := c, status := .init,
                stdout := "", stderr := "", proc := none }] }) ∧
    (∀ cmd cfg? s st, mkSlurmJob cmd s.todo.length cfg? = .ok st →
       addJob cmd "slurm" cfg? s = .ok { s with todo := s.todo ++ [.slurm st] }) ∧
    (∀ cmd cfg? s st, mkSequential cmd s.todo.length cfg? = .ok st →
       addJob cmd "sequential" cfg? s = .ok { s with todo := s.todo ++ [.seq st] }) := by
  refine ⟨?_, ?_, ?_, ?_⟩
  · intro mode cmd cfg? s h1 h2 h3
    simp [addJob, JOB_CLASSES, h1, h2, h3]
  · intro cmd s c hc
    simp [addJob, JOB_CLASSES, mkBackground, hc, Except.map]
  · intro cmd cfg? s st hst
    simp [addJob, JOB_CLASSES, hst, Except.map]
  · intro cmd cfg? s st hst
    simp [addJob, JOB_CLASSES, hst, Except.map]

/-- Witness for C6 (amended): hypotheses discharged at the concrete
unrecognized mode `"foobar"` and at a `"bash"` enqueue. -/
theorem enqueue_mode_table_witness :
    addJob (.str "x") "foobar" none (managerInit 3) = .error .keyError ∧
    addJob (.str "x") "bash" none (managerInit 3) =
      .ok { maxConcurrentJobs := 3,
            todo := [.bg { jid := 0, command := .str "x", status := .init,
                           stdout := "", stderr := "", proc := none }],
            active := [], doneL := [] } :=
  ⟨enqueue_mode_table.1 "foobar" (.str "x") none (managerInit 3)
      (by decide) (by decide) (by decide),
   enqueue_mode_table.2.1 (.str "x") (managerInit 3) (.str "x") rfl⟩

/-- C7 (amended): only `BackgroundJob` recovers from an output-decoding
error — the text fields are left at their previous (default empty) value
and the job still reaches `Done`; `ForegroundJob.submit` has no handler, so
the `UnicodeDecodeError` propagates and the job is left at `Running`,
never reaching `Done`. -/
theorem decode_error_policy :
    (∀ (e : UpdateEnv) (s : BgState) h,
       s.proc = some h →
       (utf8Decode h.outBytes = none ∨ utf8Decode h.errBytes = none) →
       (h.exitCode.orElse (fun _ => e.pollRes)).isSome = true →
       (bgUpdate e s).status = .done ∧ (bgUpdate e s).stdout = s.stdout ∧
         (bgUpdate e s).stderr = s.stderr) ∧
    (∀ (e : SubmitEnv) (s : FgState),
       (utf8Decode e.procOut = none ∨ utf8Decode e.procErr = none) →
       ∃ s', fgSubmit e s = .error (.unicodeDecodeError, s') ∧
         s'.status = .running) := by
  constructor
  · intro e s h hp hd hs
    unfold bgUpdate
    rw [hp]
    dsimp only
    cases horl : h.exitCode.orElse (fun _ => e.pollRes) with
    | none => rw [horl] at hs; simp at hs
    | some c =>
      dsimp only
      cases hdo : utf8Decode h.outBytes with
      | none => simp [hdo]
      | some o =>
        cases hde : utf8Decode h.errBytes with
        | none => simp [hdo, hde]
        | some er => rw [hdo, hde] at hd; simp at hd
  · intro e s hd
    unfold fgSubmit
    cases hdo : utf8Decode e.procOut with
    | none => exact ⟨_, rfl, rfl⟩
    | some out =>
      cases hde : utf8Decode e.procErr with
      | none => exact ⟨_, rfl, rfl⟩
      | some err => rw [hdo, hde] at hd; simp at hd

/-- Witness for C7 (amended): hypotheses discharged at a Background job
whose process produced the invalid byte `0xFF`, and a Foreground job
likewise. -/
theorem decode_error_policy_witness :
    ((bgUpdate ⟨some 1, [], ⟨[], []⟩⟩
        { jid := 0, command := .str "a", status := .running, stdout := "",
          stderr := "",
          proc := some { outBytes := [0xFF], errBytes := [],
                         exitCode := none } }).status = .done ∧
      (bgUpdate ⟨some 1, [], ⟨[], []⟩⟩
        { jid := 0, command := .str "a", status := .running, stdout := "",
          stderr := "",
          proc := some { outBytes := [0xFF], errBytes := [],
                         exitCode := none } }).stdout = "" ∧
      (bgUpdate ⟨some 1, [], ⟨[], []⟩⟩
        { jid := 0, command := .str "a", status := .running, stdout := "",
          stderr := "",
          proc := some { outBytes := [0xFF], errBytes := [],
                         exitCode := none } }).stderr = "") ∧
    (∃ s', fgSubmit ⟨[0xFF], []⟩
        { jid := 0, command := .str "a", status := .init, stdout := "",
          stderr := "" } = .error (.unicodeDecodeError, s') ∧
      s'.status = .running) := by
  constructor
  · have hd : utf8Decode ([0xFF] : List Nat) = none ∨
        utf8Decode ([] : List Nat) = none := Or.inl (by decide)
    have h := decode_error_policy.1 ⟨some 1, [], ⟨[], []⟩⟩
      { jid := 0, command := .str "a", status := .running, stdout := "",
        stderr := "",
        proc := some { outBytes := [0xFF], errBytes := [], exitCode := none } }
      { outBytes := [0xFF], errBytes := [], exitCode := none }
      rfl hd (by decide)
    simpa using h
  · exact decode_error_policy.2 ⟨[0xFF], []⟩
      { jid := 0, command := .str "a", status := .init, stdout := "",
        stderr := "" } (Or.inl (by decide))

/-! ### Manager bookkeeping lemmas -/

theorem length_filter_partition (p : JobV → Bool) (l : List JobV) :
    (l.filter p).length + (l.filter (fun a => !(p a))).length = l.length := by
  induction l with
  | nil => rfl
  | cons a t ih =>
    by_cases hp : p a <;> simp [List.filter, hp] <;> omega

theorem assignAux_at_cap (ef : Nat → SubmitEnv) (maxC : Nat) (todo : List JobV)
    (n : Nat) (active : List JobV) (h : maxC ≤ active.length) :
    assignAux ef maxC todo n active = .ok (todo, active) := by
  cases todo with
  | nil => rfl
  | cons j rest =>
    unfold assignAux
    rw [if_neg (Nat.not_lt.mpr h)]

theorem assignAux_ok (ef : Nat → SubmitEnv) (maxC : Nat) :
    ∀ (todo : List JobV) (n : Nat) (active todo' active' : List JobV),
      assignAux ef maxC todo n active = .ok (todo', active') →
      todo'.length + active'.length = todo.length + active.length ∧
      (active.length ≤ maxC → active'.length ≤ maxC) := by
  intro todo
  induction todo with
  | nil =>
    intro n active todo' active' h
    unfold assignAux at h
    injection h with h
    injection h with h1 h2
    subst h1; subst h2
    exact ⟨by simp, fun hle => hle⟩
  | cons j rest ih =>
    intro n active todo' active' h
    unfold assignAux at h
    by_cases hlt : active.length < maxC
    · rw [if_pos hlt] at h
      cases hsub : submitJ (ef n) j with
      | error p => rw [hsub] at h; cases h
      | ok j' =>
        rw [hsub] at h
        have hspec := ih (n + 1) (active ++ [j']) todo' active' h
        refine ⟨?_, fun _ => hspec.2 ?_⟩
        · have := hspec.1
          simp [List.length_append] at this ⊢
          omega
        · simp [List.length_append]
          omega
    · rw [if_neg hlt] at h
      injection h with h
      injection h with h1 h2
      subst h1; subst h2
      exact ⟨by simp, fun hle => hle⟩

theorem assignJobs_at_cap (ef : Nat → SubmitEnv) (s : MState)
    (h : s.maxConcurrentJobs ≤ s.active.length) : assignJobs ef s = .ok s := by
  unfold assignJobs
  rw [assignAux_at_cap ef _ _ _ _ h]

theorem assignJobs_ok_spec (ef : Nat → SubmitEnv) (s s' : MState)
    (h : assignJobs ef s = .ok s') :
    s'.todo.length + s'.active.length = s.todo.length + s.active.length ∧
    (s.active.length ≤ s.maxConcurrentJobs →
      s'.active.length ≤ s.maxConcurrentJobs) ∧
    s'.doneL = s.doneL ∧ s'.maxConcurrentJobs = s.maxConcurrentJobs := by
  unfold assignJobs at h
  cases ha : assignAux ef s.maxConcurrentJobs s.todo 0 s.active with
  | error er => rw [ha] at h; cases h
  | ok p =>
    obtain ⟨todo', active'⟩ := p
    rw [ha] at h
    injection h with h
    subst h
    have hspec := assignAux_ok ef s.maxConcurrentJobs s.todo 0 s.active
      todo' active' ha
    exact ⟨hspec.1, hspec.2, rfl, rfl⟩

theorem updateAll_length (ef : Nat → UpdateEnv) :
    ∀ (l : List JobV) (n : Nat) (l' : List JobV),
      updateAll ef l n = .ok l' → l'.length = l.length := by
  intro l
  induction l with
  | nil =>
    intro n l' h
    unfold updateAll at h
    injection h with h
    subst h
    rfl
  | cons j rest ih =>
    intro n l' h
    unfold updateAll at h
    cases hu : updateJ (ef n) j with
    | error p => rw [hu] at h; cases h
    | ok j' =>
      rw [hu] at h
      cases hr : updateAll ef rest (n + 1) with
      | error er => rw [hr] at h; cases h
      | ok tail =>
        rw [hr] at h
        injection h with h
        subst h
        simp [ih (n + 1) tail hr]

theorem updateJobs_ok_spec (ef : Nat → UpdateEnv) (s s' : MState)
    (h : updateJobs ef s = .ok s') :
    s'.todo = s.todo ∧
    s'.active.length + s'.doneL.length = s.active.length + s.doneL.length ∧
    s'.active.length ≤ s.active.length ∧
    s'.maxConcurrentJobs = s.maxConcurrentJobs ∧
    s.doneL <+: s'.doneL := by
  unfold updateJobs at h
  cases hu : updateAll ef s.active 0 with
  | error er => rw [hu] at h; cases h
  | ok active' =>
    rw [hu] at h
    injection h with h
    subst h
    have hlen := updateAll_length ef s.active 0 active' hu
    have hpart := length_filter_partition
      (fun j => j.status == Status.done) active'
    refine ⟨rfl, ?_, ?_, rfl, ⟨_, rfl⟩⟩
    · simp only [List.length_append]
      omega
    · calc (active'.filter (fun j => !(j.status == Status.done))).length
          ≤ active'.length := List.length_filter_le _ _
        _ = s.active.length := hlen

theorem addJob_ok_spec (cmd : JobCommand) (mode : String)
    (cfg? : Option SlurmConfig) (s s' : MState)
    (h : addJob cmd mode cfg? s = .ok s') :
    s'.active = s.active ∧ s'.doneL = s.doneL ∧
    s'.todo.length = s.todo.length + 1 ∧
    s'.maxConcurrentJobs = s.maxConcurrentJobs := by
  unfold addJob at h
  cases hk : JOB_CLASSES mode with
  | none => rw [hk] at h; cases h
  | some k =>
    rw [hk] at h
    dsimp only at h
    cases k with
    | bash =>
      cases hm : mkBackground cmd s.todo.length with
      | error er => rw [hm] at h; simp only [Except.map] at h; exact Except.noConfusion h
      | ok b =>
        rw [hm] at h
        simp only [Except.map] at h
        injection h with h
        subst h
        simp
    | slurm =>
      cases hm : mkSlurmJob cmd s.todo.length cfg? with
      | error er => rw [hm] at h; simp only [Except.map] at h; exact Except.noConfusion h
      | ok b =>
        rw [hm] at h
        simp only [Except.map] at h
        injection h with h
        subst h
        simp
    | sequential =>
      cases hm : mkSequential cmd s.todo.length cfg? with
      | error er => rw [hm] at h; simp only [Except.map] at h; exact Except.noConfusion h
      | ok b =>
        rw [hm] at h
        simp only [Except.map] at h
        injection h with h
        subst h
        simp

theorem reachable_active_le (s : MState) (h : Reachable s) :
    s.active.length ≤ s.maxConcurrentJobs := by
  induction h with
  | init maxC => exact Nat.zero_le _
  | add s t cmd mode cfg? hr hok ih =>
    have hspec := addJob_ok_spec cmd mode cfg? s t hok
    rw [hspec.1, hspec.2.2.2]
    exact ih
  | assign s t ef hr hok ih =>
    have hspec := assignJobs_ok_spec ef s t hok
    rw [hspec.2.2.2]
    exact hspec.2.1 ih
  | update s t ef hr hok ih =>
    have hspec := updateJobs_ok_spec ef s t hok
    rw [hspec.2.2.2.1]
    exact Nat.le_trans hspec.2.2.1 ih

/-- C3: `assign_jobs` admits nothing while the active list is at (or past)
the cap — the call returns the state unchanged; on every manager state
reachable through completed interface calls, `|active| ≤ max_concurrent`
holds (in particular after every `assign_jobs` call); and both `assign_jobs`
and `update_jobs` conserve the total number of jobs across the three
collections (each job is moved between collections, never lost or
duplicated), with `assign_jobs` not touching `done_list` and `update_jobs`
not touching `todo_list`. -/
theorem manager_cap_and_conservation :
    (∀ ef s, s.maxConcurrentJobs ≤ s.active.length → assignJobs ef s = .ok s) ∧
    (∀ s, Reachable s → s.active.length ≤ s.maxConcurrentJobs) ∧
    (∀ ef s s', assignJobs ef s = .ok s' →
       s'.todo.length + s'.active.length + s'.doneL.length
         = s.todo.length + s.active.length + s.doneL.length ∧
       s'.doneL = s.doneL) ∧
    (∀ ef s s', updateJobs ef s = .ok s' →
       s'.todo.length + s'.active.length + s'.doneL.length
         = s.todo.length + s.active.length + s.doneL.length ∧
       s'.todo = s.todo) := by
  refine ⟨assignJobs_at_cap, reachable_active_le, ?_, ?_⟩
  · intro ef s s' h
    have hspec := assignJobs_ok_spec ef s s' h
    refine ⟨?_, hspec.2.2.1⟩
    rw [hspec.2.2.1]
    omega
  · intro ef s s' h
    have hspec := updateJobs_ok_spec ef s s' h
    refine ⟨?_, hspec.1⟩
    rw [hspec.1]
    omega

/-- Witness for C3: the cap branch at a full (empty, cap 0) manager and the
reachable-state bound at a fresh manager with cap 5. -/
theorem manager_cap_and_conservation_witness :
    assignJobs (fun _ => ⟨[], []⟩) (managerInit 0) = .ok (managerInit 0) ∧
    (managerInit 5).active.length ≤ (managerInit 5).maxConcurrentJobs :=
  ⟨manager_cap_and_conservation.1 _ (managerInit 0) (Nat.le_refl 0),
   manager_cap_and_conservation.2.1 (managerInit 5) (Reachable.init 5)⟩

/-! ### Sequential-chain lemmas -/

theorem pollCount_cons (e : UpdateEnv) (rest : List UpdateEnv) :
    pollCount (e :: rest) =
      (if e.pollRes.isSome then 1 else 0) + pollCount rest := by
  by_cases hp : e.pollRes.isSome <;> simp [pollCount, List.filter_cons, hp] <;> omega

theorem endsWithPoll_pos : ∀ envs, endsWithPoll envs = true → 1 ≤ pollCount envs := by
  intro envs
  induction envs with
  | nil => intro h; cases h
  | cons e rest ih =>
    intro h
    cases rest with
    | nil =>
      simp only [endsWithPoll] at h
      simp [pollCount, List.filter_cons, h]
    | cons e2 t =>
      have h2 : endsWithPoll (e2 :: t) = true := h
      have := ih h2
      rw [pollCount_cons]
      omega

theorem endsWithPoll_cons_of_ne (e : UpdateEnv) (rest : List UpdateEnv)
    (hne : rest ≠ []) : endsWithPoll (e :: rest) = endsWithPoll rest := by
  cases rest with
  | nil => exact absurd rfl hne
  | cons e2 t => rfl

theorem bgUpdate_nopoll (e : UpdateEnv) (b : BgState) (h : ProcHandle)
    (hb : b.proc = some h) (hec : h.exitCode = none)
    (hp : e.pollRes = none) : bgUpdate e b = b := by
  unfold bgUpdate
  rw [hb]
  dsimp only
  rw [hec]
  dsimp only [Option.orElse]
  rw [hp]

theorem bgUpdate_poll_done (e : UpdateEnv) (b : BgState) (h : ProcHandle)
    (c : Int) (hb : b.proc = some h) (hec : h.exitCode = none)
    (hp : e.pollRes = some c) : (bgUpdate e b).status = .done := by
  unfold bgUpdate
  rw [hb]
  dsimp only
  rw [hec]
  dsimp only [Option.orElse]
  rw [hp]
  dsimp only
  split <;> rfl

theorem runSeq_completes :
    ∀ (envs : List UpdateEnv) (cs : List String) (s : SeqState) (b : BgState)
      (h : ProcHandle),
      s.status = .running → s.slurmCfg = none → s.source = .gen cs →
      s.curr = some (.bg b) → b.status = .running → b.proc = some h →
      h.exitCode = none →
      pollCount envs = cs.length + 1 → endsWithPoll envs = true →
      ∃ sf, runSeqUpdates envs s = .ok sf ∧ sf.status = .done ∧
        sf.outAcc.length = s.outAcc.length + (cs.length + 1) ∧
        sf.errAcc.length = s.errAcc.length + (cs.length + 1) ∧
        sf.source = .gen [] := by
  intro envs
  induction envs with
  | nil =>
    intro cs s b h _ _ _ _ _ _ _ hc _
    simp [pollCount] at hc
  | cons e rest ih =>
    intro cs s b h hst hcfg hsrc hcur hbst hbp hec hc hend
    cases hp : e.pollRes with
    | none =>
      have hbu : bgUpdate e b = b := bgUpdate_nopoll e b h hbp hec hp
      have hstep : seqUpdate e s = .ok s := by
        unfold seqUpdate
        rw [hcur]
        dsimp only [subUpdate]
        rw [hbu]
        dsimp only [SubJob.status]
        rw [hbst]
        rw [if_neg (by decide : ¬ (Status.running = Status.done))]
        rw [← hcur]
      have hrest : pollCount rest = cs.length + 1 := by
        rw [pollCount_cons, hp] at hc
        simpa using hc
      have hrne : rest ≠ [] := by
        intro hnil
        rw [hnil] at hrest
        simp [pollCount] at hrest
      have hend' : endsWithPoll rest = true := by
        rw [endsWithPoll_cons_of_ne e rest hrne] at hend
        exact hend
      obtain ⟨sf, hrun, hfin⟩ :=
        ih cs s b h hst hcfg hsrc hcur hbst hbp hec hrest hend'
      refine ⟨sf, ?_, hfin⟩
      unfold runSeqUpdates
      rw [hstep]
      exact hrun
    | some c =>
      have hbd : (bgUpdate e b).status = .done :=
        bgUpdate_poll_done e b h c hbp hec hp
      cases cs with
      | nil =>
        have hstep : seqUpdate e s = .ok
            { s with curr := some (.bg (bgUpdate e b)),
                     outAcc := s.outAcc ++ [(bgUpdate e b).stdout],
                     errAcc := s.errAcc ++ [(bgUpdate e b).stderr],
                     status := .done } := by
          unfold seqUpdate
          rw [hcur]
          dsimp only [subUpdate, SubJob.status, SubJob.stdout, SubJob.stderr]
          rw [hbd]
          rw [if_pos rfl]
          rw [hsrc]
          rfl
        have hrest : pollCount rest = 0 := by
          rw [pollCount_cons, hp] at hc
          simpa using hc
        have hrnil : rest = [] := by
          cases rest with
          | nil => rfl
          | cons r t =>
            have : endsWithPoll (r :: t) = true := hend
            have := endsWithPoll_pos (r :: t) this
            omega
        subst hrnil
        refine ⟨{ s with status := Status.done,
                         outAcc := s.outAcc ++ [(bgUpdate e b).stdout],
                         errAcc := s.errAcc ++ [(bgUpdate e b).stderr],
                         curr := some (SubJob.bg (bgUpdate e b)) },
                ?_, rfl, by simp, by simp, hsrc⟩
        unfold runSeqUpdates
        rw [hstep]
        rfl
      | cons c2 cs' =>
        have hstep : seqUpdate e s = .ok
            { s with curr := some (.bg (bgSubmit e.nextSub
                       { jid := s.jid, command := .str c2, status := .init,
                         stdout := "", stderr := "", proc := none })),
                     outAcc := s.outAcc ++ [(bgUpdate e b).stdout],
                     errAcc := s.errAcc ++ [(bgUpdate e b).stderr],
                     source := .gen cs' } := by
          unfold seqUpdate
          rw [hcur]
          dsimp only [subUpdate, SubJob.status, SubJob.stdout, SubJob.stderr]
          rw [hbd]
          rw [if_pos rfl]
          rw [hsrc]
          dsimp only [SeqSource.nextCmd]
          rw [hcfg]
          rfl
        have hrest : pollCount rest = cs'.length + 1 := by
          rw [pollCount_cons, hp] at hc
          simp at hc
          omega
        have hrne : rest ≠ [] := by
          intro hnil
          rw [hnil] at hrest
          simp [pollCount] at hrest
        have hend' : endsWithPoll rest = true := by
          rw [endsWithPoll_cons_of_ne e rest hrne] at hend
          exact hend
        obtain ⟨sf, hrun, hdone', hlo, hle, hsf⟩ :=
          ih cs'
            { s with curr := some (.bg (bgSubmit e.nextSub
                       { jid := s.jid, command := .str c2, status := .init,
                         stdout := "", stderr := "", proc := none })),
                     outAcc := s.outAcc ++ [(bgUpdate e b).stdout],
                     errAcc := s.errAcc ++ [(bgUpdate e b).stderr],
                     source := .gen cs' }
            (bgSubmit e.nextSub
                       { jid := s.jid, command := .str c2, status := .init,
                         stdout := "", stderr := "", proc := none })
            { outBytes := e.nextSub.procOut, errBytes := e.nextSub.procErr,
              exitCode := none }
            (by simpa using hst) (by simpa using hcfg) rfl rfl rfl rfl rfl
            hrest hend'
        refine ⟨sf, ?_, hdone', ?_, ?_, hsf⟩
        · unfold runSeqUpdates
          rw [hstep]
          exact hrun
        · simp at hlo
          simp [hlo]
          omega
        · simp at hle
          simp [hle]
          omega

/-- C8: a `SequentialJob` over any non-empty finite source, driven by
repeated `update_status()` calls under any poll schedule in which each
sub-job's process is eventually observed exited (one observed exit per
sub-command, with arbitrary exit codes — nonzero exits do not halt the
chain — and arbitrarily many unfinished polls in between, the run stopping
at completion), ends `Done` with the source exhausted and the accumulated
stdout and stderr sequences holding exactly one entry per consumed
sub-command. -/
theorem seq_chain_output_counts :
    ∀ (cmds : List String) (jid : Nat) (e0 : SubmitEnv) (envs : List UpdateEnv),
      cmds ≠ [] → pollCount envs = cmds.length → endsWithPoll envs = true →
      ∃ s0 s1 sf, mkSequential (.gen cmds) jid none = .ok s0 ∧
        seqSubmit e0 s0 = .ok s1 ∧ runSeqUpdates envs s1 = .ok sf ∧
        sf.status = .done ∧ sf.outAcc.length = cmds.length ∧
        sf.errAcc.length = cmds.length ∧ sf.source = .gen [] := by
  intro cmds jid e0 envs hne hc hend
  cases cmds with
  | nil => exact absurd rfl hne
  | cons c cs =>
    have hrun := runSeq_completes envs cs
      ⟨jid, .gen cs, .running, [], [],none,
        some (SubJob.bg ⟨jid, .str c, .running, "", "",
          some ⟨e0.procOut, e0.procErr, none⟩⟩)⟩
      ⟨jid, .str c, .running, "", "", some ⟨e0.procOut, e0.procErr, none⟩⟩
      ⟨e0.procOut, e0.procErr, none⟩
      rfl rfl rfl rfl rfl rfl rfl (by simpa using hc) hend
    obtain ⟨sf, h1, h2, h3, h4, h5⟩ := hrun
    exact ⟨_, _, sf, rfl, rfl, h1, h2, by simpa using h3, by simpa using h4, h5⟩

/-- Witness for C8: source `["a"]`, the single sub-command observed exited
with the nonzero exit code `1` — the chain still completes with one output
entry. -/
theorem seq_chain_output_counts_witness :
    ∃ s0 s1 sf, mkSequential (.gen ["a"]) 0 none = .ok s0 ∧
      seqSubmit ⟨[], []⟩ s0 = .ok s1 ∧
      runSeqUpdates [⟨some 1, [], ⟨[], []⟩⟩] s1 = .ok sf ∧
      sf.status = .done ∧ sf.outAcc.length = 1 ∧ sf.errAcc.length = 1 ∧
      sf.source = .gen [] := by
  have h := seq_chain_output_counts ["a"] 0 ⟨[], []⟩ [⟨some 1, [], ⟨[], []⟩⟩]
    (by decide) (by decide) (by decide)
  simpa using h

/-! ### Substring lemmas for the rendered command -/

theorem listStartsWith_self_append :
    ∀ (n t : List Char), listStartsWith n (n ++ t) = true := by
  intro n
  induction n with
  | nil => intro t; rfl
  | cons a as ih => intro t; simp [listStartsWith, ih]

theorem listContainsSub_nil_needle :
    ∀ h, listContainsSub [] h = true := by
  intro h
  cases h with
  | nil => rfl
  | cons c cs => simp [listContainsSub, listStartsWith]

theorem listContainsSub_here (n post : List Char) :
    listContainsSub n (n ++ post) = true := by
  cases n with
  | nil => exact listContainsSub_nil_needle post
  | cons a as =>
    simp only [listContainsSub, List.cons_append, Bool.or_eq_true]
    exact Or.inl (listStartsWith_self_append (a :: as) post)

theorem listContainsSub_append_left :
    ∀ (pre n h : List Char), listContainsSub n h = true →
      listContainsSub n (pre ++ h) = true := by
  intro pre
  induction pre with
  | nil => intro n h hh; exact hh
  | cons a t ih =>
    intro n h hh
    simp [listContainsSub, ih n h hh]

theorem listContainsSub_surround (n pre post : List Char) :
    listContainsSub n (pre ++ (n ++ post)) = true :=
  listContainsSub_append_left pre n (n ++ post) (listContainsSub_here n post)

theorem foldl_optsWith (seg : String) :
    ∀ (l : List (String × PyVal)) (a : String),
      l.foldl (fun acc kv => acc ++ seg ++ format_key kv.1 ++ "=" ++ kv.2.render) a
        = a ++ optsWith seg l := by
  intro l
  induction l with
  | nil => intro a; simp [optsWith, String.append_empty]
  | cons kv rest ih =>
    intro a
    rw [List.foldl_cons, ih, optsWith]
    simp [String.append_assoc]

theorem contains_opts (seg : String) :
    ∀ (l : List (String × PyVal)) (k : String) (v : PyVal), (k, v) ∈ l →
      ∀ (A B : List Char),
        listContainsSub (seg ++ format_key k ++ "=" ++ v.render).data
          (A ++ ((optsWith seg l).data ++ B)) = true := by
  intro l
  induction l with
  | nil => intro k v hmem; cases hmem
  | cons kv rest ih =>
    intro k v hmem A B
    cases List.mem_cons.mp hmem with
    | inl heq =>
      subst heq
      have h := listContainsSub_surround
        (seg ++ format_key k ++ "=" ++ v.render).data A
        ((optsWith seg rest).data ++ B)
      simpa [optsWith, String.data_append, List.append_assoc] using h
    | inr hmem' =>
      have h := ih k v hmem'
        (A ++ (seg ++ format_key kv.1 ++ "=" ++ kv.2.render).data) B
      simpa [optsWith, String.data_append, List.append_assoc] using h

/-- C9 (amended): the command builder renders every set option with the
underscore key converted to hyphens (`cpus_per_task=4` renders as
`--cpus-per-task=4`), in both the `srun` flag form and the `#SBATCH`
directive form; an option whose value is `None` is NOT omitted — it is
rendered like any other value, as the literal text `None`
(e.g. `--foo=None`). -/
theorem option_rendering :
    format_key "cpus_per_task" = "cpus-per-task" ∧
    SlurmConfig.command ⟨[("cpus_per_task", .vint 4)]⟩ (.str "echo hi") false
      = "srun --cpus-per-task=4 echo hi" ∧
    (∀ (cfg : SlurmConfig) (k : String) (v : PyVal) (core : CoreCmd),
      (k, v) ∈ cfg.kwargs →
      listContainsSub (" --" ++ format_key k ++ "=" ++ v.render).data
        (cfg.command core false).data = true) ∧
    (∀ (cfg : SlurmConfig) (k : String) (v : PyVal) (core : CoreCmd),
      (k, v) ∈ cfg.kwargs →
      listContainsSub ("\n#SBATCH --" ++ format_key k ++ "=" ++ v.render).data
        (cfg.command core true).data = true) := by
  refine ⟨rfl, rfl, ?_, ?_⟩
  · intro cfg k v core hmem
    unfold SlurmConfig.command
    rw [if_neg (by decide : ¬((false : Bool) = true))]
    rw [foldl_optsWith]
    have h := contains_opts " --" cfg.kwargs k v hmem "srun".data
      ((" " ++ mergeCore core).data)
    simpa [String.data_append, List.append_assoc] using h
  · intro cfg k v core hmem
    unfold SlurmConfig.command
    rw [if_pos (rfl : (true : Bool) = true)]
    rw [foldl_optsWith]
    have h := contains_opts "\n#SBATCH --" cfg.kwargs k v hmem
      ("sbatch".data ++ " << EOF\n".data ++ "#!/bin/bash".data)
      (("\n\n" ++ mergeCore core).data ++ "\nEOF".data)
    simpa [String.data_append, List.append_assoc] using h

/-- Witness for C9 (amended): the membership hypothesis discharged on a
concrete single-option configuration with a `None` value, in both forms. -/
theorem option_rendering_witness :
    listContainsSub (" --" ++ format_key "foo" ++ "=" ++ PyVal.vnone.render).data
      (SlurmConfig.command ⟨[("foo", .vnone)]⟩ (.str "echo hi") false).data
      = true ∧
    listContainsSub ("\n#SBATCH --" ++ format_key "foo" ++ "=" ++ PyVal.vnone.render).data
      (SlurmConfig.command ⟨[("foo", .vnone)]⟩ (.str "echo hi") true).data
      = true :=
  ⟨option_rendering.2.2.1 ⟨[("foo", .vnone)]⟩ "foo" .vnone (.str "echo hi")
      (List.mem_singleton.mpr rfl),
   option_rendering.2.2.2 ⟨[("foo", .vnone)]⟩ "foo" .vnone (.str "echo hi")
      (List.mem_singleton.mpr rfl)⟩

end Ezslurm
